import Mathlib

/-!
# Verification of the buckaroo-banzai accounting core

A shallow embedding of the bank package: the Redis-backed balance
store (`incrCmd`, `transferCmd` and the Go wrappers around them), the
export outbox (`submitExportCmd`, `SubmitExport`, `ConsumeExports`),
and the consumer-group reader semantics the export consumer relies on.

Balances are modelled as a total map `String → Option Int`: `none` is
a user with no recorded hash field (Redis HGET returning nil), which
the Lua scripts coerce to 0 via `tonumber`/`if not balance`.  Every
script returns the possibly-updated state together with its reply, so
"the state is unchanged on failure" is a provable fact rather than a
consequence of the modelling.
-/

namespace Buckaroo

/-- A Redis hash of balances: field (user id) to stored integer.
`none` models an absent hash field (HGET reply of nil). -/
abbrev Balances := String → Option Int

/-- The balance a Lua script computes for a user: the stored value,
or 0 when the field is absent (`if not balance then balance = 0 end`). -/
def bal (s : Balances) (u : String) : Int :=
  (s u).getD 0

/-- Redis HINCRBY: treats an absent field as 0, adds, stores, and
returns the new value. -/
def hincrby (s : Balances) (u : String) (n : Int) : Balances × Int :=
  let nb := bal s u + n
  (fun v => if v = u then some nb else s v, nb)

/-- The error replies the bank scripts can produce. -/
inductive BankErr
  /-- The "you aint got that kind of scratch, kid" error reply. -/
  | notEnoughFunds
deriving DecidableEq

/-- The `incrCmd` Lua script: reads the balance (absent treated as 0),
errors without writing when `balance + toIncr < 0`, otherwise HINCRBYs
and returns the new balance. -/
def incrCmd (s : Balances) (u : String) (toIncr : Int) :
    Balances × Except BankErr Int :=
  let balance := bal s u
  if balance + toIncr < 0 then
    (s, Except.error BankErr.notEnoughFunds)
  else
    let r := hincrby s u toIncr
    (r.1, Except.ok r.2)

/-- The current `transferCmd` Lua script: reads both balances (absent
treated as 0), errors without writing when the new source balance or
the new destination balance would be negative, otherwise performs the
two HINCRBYs in order (destination credit, then source debit) and
returns both reply values. -/
def transferCmd (s : Balances) (dst src : String) (amt : Int) :
    Balances × Except BankErr (Int × Int) :=
  let dstBalance := bal s dst
  let srcBalance := bal s src
  if srcBalance - amt < 0 ∨ dstBalance + amt < 0 then
    (s, Except.error BankErr.notEnoughFunds)
  else
    let r1 := hincrby s dst amt
    let r2 := hincrby r1.1 src (-amt)
    (r2.1, Except.ok (r1.2, r2.2))

/-- The historical `transferCmd` Lua script: reads only the source
balance and errors when `srcBalance < toTransfer`; the success path is
identical to the current script. -/
def transferCmdOld (s : Balances) (dst src : String) (amt : Int) :
    Balances × Except BankErr (Int × Int) :=
  let srcBalance := bal s src
  if srcBalance < amt then
    (s, Except.error BankErr.notEnoughFunds)
  else
    let r1 := hincrby s dst amt
    let r2 := hincrby r1.1 src (-amt)
    (r2.1, Except.ok (r1.2, r2.2))

/-- The Go `redisBank.Incr` wrapper: forwards to `incrCmd`; on an
error reply it returns balance 0 together with the (translated)
error, on success the new balance and no error. -/
def Incr (s : Balances) (u : String) (amt : Int) :
    Balances × Int × Option BankErr :=
  match incrCmd s u amt with
  | (s', Except.ok n) => (s', n, none)
  | (s', Except.error e) => (s', 0, some e)

/-- The Go `redisBank.Transfer` wrapper: forwards to `transferCmd`; on
an error reply it returns balances (0, 0) together with the error, on
success the two reply values and no error. -/
def Transfer (s : Balances) (dst src : String) (amt : Int) :
    Balances × Int × Int × Option BankErr :=
  match transferCmd s dst src amt with
  | (s', Except.ok r) => (s', r.1, r.2, none)
  | (s', Except.error e) => (s', 0, 0, some e)

/-- The Go `redisBank.Balance`: HGET, with a nil reply decoded as 0. -/
def Balance (s : Balances) (u : String) : Int :=
  bal s u

/-- The fields of `bank.Export`: a requested outbound transfer. -/
structure Export where
  fromUserID : String
  amount : Int
  protocol : String
  protocolPayload : String
deriving DecidableEq

/-- Modelled from the spec: the serialized form of an export record,
standing in for `encoding/json.Marshal` of `Export` (which cannot
fail for this struct); fields in declaration order. -/
def encodeExport (e : Export) : String :=
  "\x7b\"FromUserID\":\"" ++ e.fromUserID ++ "\",\"Amount\":" ++
    toString e.amount ++ ",\"Protocol\":\"" ++ e.protocol ++
    "\",\"ProtocolPayload\":\"" ++ e.protocolPayload ++ "\"\x7d"

/-- Drops `lit` from the front of `s`, failing when it is not there. -/
def dropLit (lit s : String) : Option String :=
  if s.startsWith lit then some (s.drop lit.length) else none

/-- The double-quote character. -/
def quoteChar : Char := Char.ofNat 34

/-- Splits off the longest quote-free prefix. -/
def takeStr (s : String) : String × String :=
  let f := s.takeWhile (fun c => c != quoteChar)
  (f, s.drop f.length)

/-- Modelled from the spec: `encoding/json.Unmarshal` of a stream
payload back into an `Export`, standing in for the deserialization
step of the consume loop; accepts the strings `encodeExport` produces
(for field values free of quote characters) and rejects everything
else. -/
def decodeExport (s : String) : Option Export := do
  let s1 ← dropLit "\x7b\"FromUserID\":\"" s
  let p1 := takeStr s1
  let s2 ← dropLit "\",\"Amount\":" p1.2
  let amtStr := s2.takeWhile (fun c => c.isDigit || c == Char.ofNat 45)
  let amt ← amtStr.toInt?
  let s3 ← dropLit ",\"Protocol\":\"" (s2.drop amtStr.length)
  let p2 := takeStr s3
  let s4 ← dropLit "\",\"ProtocolPayload\":\"" p2.2
  let p3 := takeStr s4
  let s5 ← dropLit "\"\x7d" p3.2
  if s5.isEmpty then some ⟨p1.1, amt, p2.1, p3.1⟩ else none

/-- One entry of the exports stream: the id XADD assigned and the
value of its "json" field. -/
structure StreamEntry where
  id : Nat
  json : String
deriving DecidableEq

/-- The Redis state the exporting bank touches: the balances hash,
the exports stream, and the next id XADD will assign (stream ids are
unique and monotonically increasing). -/
structure RState where
  balances : Balances
  exports : List StreamEntry
  nextID : Nat

/-- The `submitExportCmd` Lua script: errors without writing when the
source balance (absent treated as 0) is below the amount; otherwise
debits the source with HINCRBY and XADDs the payload under the "json"
field, returning the new entry id. -/
def submitExportCmd (st : RState) (user : String) (amount : Int)
    (exportJSON : String) : RState × Except BankErr Nat :=
  let srcBalance := bal st.balances user
  if srcBalance < amount then
    (st, Except.error BankErr.notEnoughFunds)
  else
    let b := (hincrby st.balances user (-amount)).1
    ({ balances := b,
       exports := st.exports ++ [⟨st.nextID, exportJSON⟩],
       nextID := st.nextID + 1 }, Except.ok st.nextID)

/-- The errors `SubmitExport` can return. -/
inductive SubmitErr
  /-- The local "malformed Export.Amount" validation error. -/
  | malformedAmount (n : Int)
  /-- The not-enough-funds error translated out of the script reply. -/
  | notEnoughFunds
deriving DecidableEq

/-- The Go `redisBank.SubmitExport`: validates `Amount > 0` locally
before any store access, marshals the export, runs `submitExportCmd`,
and returns the stream id rendered as a string; on any error the
returned id is the empty string. -/
def SubmitExport (st : RState) (e : Export) :
    RState × String × Option SubmitErr :=
  if e.amount ≤ 0 then
    (st, "", some (SubmitErr.malformedAmount e.amount))
  else
    match submitExportCmd st e.fromUserID e.amount (encodeExport e) with
    | (st', Except.ok i) => (st', toString i, none)
    | (st', Except.error _) => (st', "", some SubmitErr.notEnoughFunds)

/-- A channel item of `ConsumeExports`: the stream id of the entry
and the decoded export (the `ExportInProgress` payload). -/
structure SentExport where
  entryID : Nat
  toExport : Export
deriving DecidableEq

/-- An action `ConsumeExports` can take on its output channel. -/
inductive ChanOp
  | send (x : SentExport)
  | close
deriving DecidableEq

/-- The outcomes one stream-reader call can produce: a read error, a
block timeout with no entry (`ok = false`), or a delivered entry. -/
inductive ReadResult
  | err (msg : String)
  | timeout
  | entry (e : StreamEntry)
deriving DecidableEq

/-- One loop iteration of `ConsumeExports` as its environment drives
it: either the context is already canceled at the top of the loop, or
the reader call returns some result. -/
inductive ConsumeStep
  | canceled
  | read (r : ReadResult)
deriving DecidableEq

/-- The Go error values `ConsumeExports` can return. -/
inductive GoError
  | ctxErr
  | readerErr (msg : String)
  | unmarshalErr (payload : String)
deriving DecidableEq

/-- The step of the `ConsumeExports` loop for a delivered entry, on
the result of unmarshaling its payload: a failed unmarshal returns
that wrapped error at once (the rest of the loop never runs), a
successful one sends the decoded export and the loop goes on. -/
def consumeEntry (e : StreamEntry) :
    Option Export → List ChanOp × Option (Option GoError) →
      List ChanOp × Option (Option GoError)
  | none, _ => ([], some (some (GoError.unmarshalErr e.json)))
  | some ex, r => (ChanOp.send ⟨e.id, ex⟩ :: r.1, r.2)

/-- The `ConsumeExports` loop over a finite trace of iteration
inputs: checks cancellation at the top of each iteration, returns the
context error when it fires, returns wrapped errors from the reader
or from unmarshaling, continues past timeouts, and sends each decoded
entry to the channel.  The result pairs the channel actions taken
with `some` of the returned Go error value (itself an `Option`,
`none` standing for a nil Go error) — or `none` overall when the
trace ran out with the loop still running. -/
def consumeLoop : List ConsumeStep → List ChanOp × Option (Option GoError)
  | [] => ([], none)
  | ConsumeStep.canceled :: _ => ([], some (some GoError.ctxErr))
  | ConsumeStep.read (ReadResult.err m) :: _ =>
    ([], some (some (GoError.readerErr m)))
  | ConsumeStep.read ReadResult.timeout :: rest => consumeLoop rest
  | ConsumeStep.read (ReadResult.entry e) :: rest =>
    consumeEntry e (decodeExport e.json) (consumeLoop rest)

/-- Modelled from the spec: the consumer-group bookkeeping of the
Outbox Log — the durable cursor (highest id ever delivered to the
group) and the pending ids (delivered to some reader, never
acknowledged), in delivery order. -/
structure Group where
  lastDelivered : Nat
  pending : List Nat
deriving DecidableEq

/-- Modelled from the spec: the entries one reader session delivers,
in order — first the redelivery of the group pending entries, then
the never-delivered tail of the stream. -/
def sessionEntries (entries : List StreamEntry) (g : Group) :
    List StreamEntry :=
  g.pending.filterMap (fun i => entries.find? (fun e => e.id == i)) ++
    entries.filter (fun e => decide (g.lastDelivered < e.id))

/-- Modelled from the spec: delivering entry `e` to a reader in group
`g` advances the durable cursor to cover `e` and records `e` as
pending until it is acknowledged. -/
def deliver (g : Group) (e : StreamEntry) : Group :=
  { lastDelivered := max g.lastDelivered e.id,
    pending :=
      if e.id ∈ g.pending then g.pending else g.pending ++ [e.id] }

/-- One `ConsumeExports` call run against the group-state model: each
delivered entry updates the group bookkeeping; an undecodable payload
ends the call with the unmarshal error, the entry neither acked nor
nacked; a decodable one is sent on the channel and the loop moves on;
when nothing is left the loop would only block on timeouts, so the
run ends still looping (`none`). -/
def sessionEntry (e : StreamEntry) (g' : Group) :
    Option Export → List ChanOp × Group × Option GoError →
      List ChanOp × Group × Option GoError
  | none, _ => ([], g', some (GoError.unmarshalErr e.json))
  | some ex, r => (ChanOp.send ⟨e.id, ex⟩ :: r.1, r.2.1, r.2.2)

/-- The session loop itself; `sessionEntry` is the per-entry step on
the unmarshal outcome. -/
def consumeSession :
    List StreamEntry → Group → List ChanOp × Group × Option GoError
  | [], g => ([], g, none)
  | e :: rest, g =>
    sessionEntry e (deliver g e) (decodeExport e.json)
      (consumeSession rest (deliver g e))

/-- One client call against the bank, for reasoning about sequences
of operations (concurrent calls are linearized by the atomicity of
the server-side scripts). -/
inductive Op
  | balanceOf (u : String)
  | incr (u : String) (amt : Int)
  | transfer (dst src : String) (amt : Int)
  | submitExport (e : Export)
deriving DecidableEq

/-- The state after an operation, whether it succeeds or fails. -/
def applyOp (st : RState) (op : Op) : RState :=
  match op with
  | Op.balanceOf _ => st
  | Op.incr u amt => { st with balances := (Incr st.balances u amt).1 }
  | Op.transfer dst src amt =>
    { st with balances := (Transfer st.balances dst src amt).1 }
  | Op.submitExport e => (SubmitExport st e).1

/-- Whether an operation succeeds in the given state. -/
def opOk (st : RState) (op : Op) : Bool :=
  match op with
  | Op.balanceOf _ => true
  | Op.incr u amt => ((Incr st.balances u amt).2.2).isNone
  | Op.transfer dst src amt =>
    ((Transfer st.balances dst src amt).2.2.2).isNone
  | Op.submitExport e => ((SubmitExport st e).2.2).isNone

/-- The delta an operation requests on one user balance. -/
def opDelta (u : String) (op : Op) : Int :=
  match op with
  | Op.balanceOf _ => 0
  | Op.incr v amt => if v = u then amt else 0
  | Op.transfer dst src amt =>
    (if dst = u then amt else 0) + (if src = u then -amt else 0)
  | Op.submitExport e => if e.fromUserID = u then -e.amount else 0

/-- Running a sequence of operations. -/
def runOps (st : RState) (ops : List Op) : RState :=
  ops.foldl applyOp st

/-- The sum of the deltas of the successfully-applied operations of a
sequence, for one user. -/
def appliedDeltas (u : String) : RState → List Op → Int
  | _, [] => 0
  | st, op :: rest =>
    (if opOk st op then opDelta u op else 0) +
      appliedDeltas u (applyOp st op) rest

/-- Whether an operation is a ledger call (`Incr` or `Transfer`). -/
def ledgerOp : Op → Bool
  | Op.incr _ _ => true
  | Op.transfer _ _ _ => true
  | _ => false

/-- Every balance in the store is non-negative. -/
def nonNeg (st : RState) : Prop :=
  ∀ u, 0 ≤ bal st.balances u

/-- Two balance maps that the scripts cannot tell apart: they agree
once an absent field is read as 0. -/
def obsEq (s1 s2 : Balances) : Prop :=
  ∀ v, bal s1 v = bal s2 v

/-- Writes one user field of a balance map. -/
def setField (s : Balances) (u : String) (x : Option Int) : Balances :=
  fun v => if v = u then x else s v

/-- The outcome C2 claims of `Transfer`, stated from the claim text:
either the call succeeds, the destination balance ends `+amount` from
where it started, the source balance ends `-amount` from where it
started, the two returned amounts are those two final balances, and no
other balance moves; or the call fails and the state is untouched. -/
def transferClaimedOutcome (s : Balances) (dst src : String) (amt : Int) : Prop :=
  (∃ s' nd ns, Transfer s dst src amt = (s', nd, ns, none) ∧
    bal s' dst = bal s dst + amt ∧
    bal s' src = bal s src - amt ∧
    nd = bal s' dst ∧ ns = bal s' src ∧
    ∀ v, v ≠ dst → v ≠ src → s' v = s v) ∨
  (∃ e, (Transfer s dst src amt).2.2.2 = some e ∧
    (Transfer s dst src amt).1 = s)

end Buckaroo

namespace Buckaroo

/-- C1: `Incr(u, delta)` fails with the not-enough-funds error and
leaves every balance unchanged when `balance(u) + delta < 0`;
otherwise it stores `balance(u) + delta` for `u`, touches no other
balance, and returns that new balance.  A user with no recorded
balance is treated as having balance 0. -/
theorem incr_spec (s : Balances) (u : String) (delta : Int) :
    (bal s u + delta < 0 →
      Incr s u delta = (s, 0, some BankErr.notEnoughFunds)) ∧
    (0 ≤ bal s u + delta →
      ∃ s', Incr s u delta = (s', bal s u + delta, none) ∧
        s' u = some (bal s u + delta) ∧
        ∀ v, v ≠ u → s' v = s v) := by
  constructor
  · intro h
    simp [Incr, incrCmd, h]
  · intro h
    refine ⟨(hincrby s u delta).1, ?_, ?_, ?_⟩
    · simp [Incr, incrCmd, not_lt.mpr h, hincrby]
    · simp [hincrby]
    · intro v hv
      simp [hincrby, hv]

/-- Witness for C1 at a concrete state: user "a" holds 3; an
increment of -5 fails leaving the state alone, and an increment of 4
succeeds with new balance 7. -/
theorem incr_spec_witness :
    (Incr (fun v => if v = "a" then some 3 else none) "a" (-5) =
        ((fun v => if v = "a" then some 3 else none), 0,
          some BankErr.notEnoughFunds)) ∧
    (∃ s', Incr (fun v => if v = "a" then some 3 else none) "a" 4 =
        (s', bal (fun v => if v = "a" then some 3 else none) "a" + 4, none) ∧
      s' "a" = some (bal (fun v => if v = "a" then some 3 else none) "a" + 4) ∧
      ∀ v, v ≠ "a" → s' v = (fun v => if v = "a" then some 3 else none) v) :=
  ⟨(incr_spec _ "a" (-5)).1 (by simp [bal]),
    (incr_spec _ "a" 4).2 (by simp [bal])⟩

/-- An error reply from `transferCmd` leaves the balances exactly as
they were: the script checks both balances before either HINCRBY. -/
theorem transferCmd_error_state (s : Balances) (dst src : String) (amt : Int)
    (s' : Balances) (e : BankErr)
    (h : transferCmd s dst src amt = (s', Except.error e)) : s' = s := by
  simp only [transferCmd] at h
  split at h
  · simp only [Prod.mk.injEq] at h
    exact h.1.symm
  · simp at h

/-- The transferCmd script on a failed balance check: error reply, state kept. -/
theorem transferCmd_err (s : Balances) (dst src : String) (amt : Int)
    (h : bal s src - amt < 0 ∨ bal s dst + amt < 0) :
    transferCmd s dst src amt = (s, Except.error BankErr.notEnoughFunds) := by
  simp only [transferCmd, if_pos h]

/-- The transferCmd script on a passed balance check: the two HINCRBYs run in
order and both replies are returned. -/
theorem transferCmd_ok (s : Balances) (dst src : String) (amt : Int)
    (h : ¬ (bal s src - amt < 0 ∨ bal s dst + amt < 0)) :
    transferCmd s dst src amt =
      ((hincrby (hincrby s dst amt).1 src (-amt)).1,
        Except.ok ((hincrby s dst amt).2,
          (hincrby (hincrby s dst amt).1 src (-amt)).2)) := by
  simp only [transferCmd, if_neg h]

/-- The Transfer wrapper on a failed balance check. -/
theorem Transfer_err (s : Balances) (dst src : String) (amt : Int)
    (h : bal s src - amt < 0 ∨ bal s dst + amt < 0) :
    Transfer s dst src amt = (s, 0, 0, some BankErr.notEnoughFunds) := by
  simp only [Transfer, transferCmd_err s dst src amt h]

/-- The Transfer wrapper on a passed balance check. -/
theorem Transfer_ok (s : Balances) (dst src : String) (amt : Int)
    (h : ¬ (bal s src - amt < 0 ∨ bal s dst + amt < 0)) :
    Transfer s dst src amt =
      ((hincrby (hincrby s dst amt).1 src (-amt)).1,
        (hincrby s dst amt).2,
        (hincrby (hincrby s dst amt).1 src (-amt)).2, none) := by
  simp only [Transfer, transferCmd_ok s dst src amt h]

/-- C2 counterexample: a self-transfer of 5 by user "a" holding 10
succeeds, yet leaves the stored balance at 10 (not changed by +5) and
returns 15 as the "new destination balance" even though the final
stored balance is 10 — so the claimed outcome fails at dst = src. -/
theorem transfer_claim_counterexample :
    ¬ transferClaimedOutcome
        (fun v => if v = "a" then some 10 else none) "a" "a" 5 := by
  intro h
  have hbal : bal (Transfer
      (fun v => if v = "a" then some 10 else none) "a" "a" 5).1 "a" = 10 := by
    simp [Transfer, transferCmd, hincrby, bal]
  have herr : (Transfer
      (fun v => if v = "a" then some 10 else none) "a" "a" 5).2.2.2 = none := by
    simp [Transfer, transferCmd, hincrby, bal]
  rcases h with ⟨s', nd, ns, heq, hd, _⟩ | ⟨e, he, _⟩
  · have h1 : (Transfer
        (fun v => if v = "a" then some 10 else none) "a" "a" 5).1 = s' :=
      congrArg Prod.fst heq
    rw [h1, hd] at hbal
    norm_num [bal] at hbal
  · rw [herr] at he
    exact Option.noConfusion he

/-- C2 (amended): `Transfer(dst, src, amount)` fails with the
not-enough-funds error, leaving every balance unchanged, whenever the
resulting source balance would go negative; any failure leaves the
state untouched.  For `dst ≠ src` a successful call sets the two
balances to `+amount`/`-amount` from their old values, returns those
two final balances, and touches no other balance.  For `dst = src` a
successful call leaves the stored balance unchanged and returns
`(balance + amount, balance)`. -/
theorem transfer_spec_amended (s : Balances) (dst src : String) (amt : Int) :
    (bal s src - amt < 0 →
      Transfer s dst src amt = (s, 0, 0, some BankErr.notEnoughFunds)) ∧
    (∀ s' n1 n2 e, Transfer s dst src amt = (s', n1, n2, some e) → s' = s) ∧
    (dst ≠ src → 0 ≤ bal s src - amt → 0 ≤ bal s dst + amt →
      ∃ s', Transfer s dst src amt =
          (s', bal s dst + amt, bal s src - amt, none) ∧
        s' dst = some (bal s dst + amt) ∧
        s' src = some (bal s src - amt) ∧
        ∀ v, v ≠ dst → v ≠ src → s' v = s v) ∧
    (dst = src → 0 ≤ bal s src - amt → 0 ≤ bal s src + amt →
      ∃ s', Transfer s dst src amt =
          (s', bal s src + amt, bal s src, none) ∧
        s' src = some (bal s src) ∧
        ∀ v, v ≠ src → s' v = s v) := by
  refine ⟨?_, ?_, ?_, ?_⟩
  · intro h
    exact Transfer_err s dst src amt (Or.inl h)
  · intro s' n1 n2 e h
    by_cases hc : bal s src - amt < 0 ∨ bal s dst + amt < 0
    · rw [Transfer_err s dst src amt hc] at h
      exact (Prod.mk.injEq .. ▸ h).1.symm
    · rw [Transfer_ok s dst src amt hc] at h
      simp at h
  · intro hne h1 h2
    have hcond : ¬ (bal s src - amt < 0 ∨ bal s dst + amt < 0) := by omega
    have hs1 : bal (hincrby s dst amt).1 src = bal s src := by
      simp [hincrby, bal, hne.symm]
    refine ⟨(hincrby (hincrby s dst amt).1 src (-amt)).1, ?_, ?_, ?_, ?_⟩
    · rw [Transfer_ok s dst src amt hcond]
      have hv1 : (hincrby s dst amt).2 = bal s dst + amt := rfl
      have hv2 : (hincrby (hincrby s dst amt).1 src (-amt)).2
          = bal s src - amt := by
        have hr : (hincrby (hincrby s dst amt).1 src (-amt)).2
            = bal (hincrby s dst amt).1 src + (-amt) := rfl
        rw [hr, hs1]
        ring
      rw [hv1, hv2]
    · simp [hincrby, hne.symm, hne, bal]
    · have hstep : (hincrby (hincrby s dst amt).1 src (-amt)).1 src
          = some (bal (hincrby s dst amt).1 src + (-amt)) := by
        simp [hincrby]
      rw [hstep, hs1]
      norm_num [sub_eq_add_neg]
    · intro v hvd hvs
      simp [hincrby, hvd, hvs]
  · intro heq h1 h2
    subst heq
    have hcond : ¬ (bal s dst - amt < 0 ∨ bal s dst + amt < 0) := by omega
    have hs1 : bal (hincrby s dst amt).1 dst = bal s dst + amt := by
      simp [hincrby, bal]
    refine ⟨(hincrby (hincrby s dst amt).1 dst (-amt)).1, ?_, ?_, ?_⟩
    · rw [Transfer_ok s dst dst amt hcond]
      have hv1 : (hincrby s dst amt).2 = bal s dst + amt := rfl
      have hv2 : (hincrby (hincrby s dst amt).1 dst (-amt)).2 = bal s dst := by
        have hr : (hincrby (hincrby s dst amt).1 dst (-amt)).2
            = bal (hincrby s dst amt).1 dst + (-amt) := rfl
        rw [hr, hs1]
        ring
      rw [hv1, hv2]
    · have hstep : (hincrby (hincrby s dst amt).1 dst (-amt)).1 dst
          = some (bal (hincrby s dst amt).1 dst + (-amt)) := by
        simp [hincrby]
      rw [hstep, hs1]
      congr 1
      ring
    · intro v hv
      simp [hincrby, hv]

/-- C6: on any state with all balances non-negative and any
non-negative amount, the current transfer script (which also rejects a
negative resulting destination balance) and the historical one (which
rejects only a negative resulting source balance) are the same
operation: same success or failure, same new balances, same state. -/
theorem transfer_variants_equiv (s : Balances) (dst src : String) (amt : Int)
    (hamt : 0 ≤ amt) (hnn : ∀ u, 0 ≤ bal s u) :
    transferCmd s dst src amt = transferCmdOld s dst src amt := by
  have hd := hnn dst
  simp only [transferCmd, transferCmdOld]
  split_ifs with h1 h2 h2 <;> first | rfl | omega

/-- The Incr wrapper on a failed balance check: error, state kept, balance 0. -/
theorem Incr_err (s : Balances) (u : String) (amt : Int)
    (h : bal s u + amt < 0) :
    Incr s u amt = (s, 0, some BankErr.notEnoughFunds) := by
  simp [Incr, incrCmd, h]

/-- The Incr wrapper on a passed balance check: HINCRBY runs and the new
balance is returned. -/
theorem Incr_ok (s : Balances) (u : String) (amt : Int)
    (h : 0 ≤ bal s u + amt) :
    Incr s u amt = ((hincrby s u amt).1, bal s u + amt, none) := by
  simp [Incr, incrCmd, not_lt.mpr h, hincrby]

/-- Reading any user after an HINCRBY. -/
theorem bal_hincrby (s : Balances) (u v : String) (n : Int) :
    bal (hincrby s u n).1 v = if v = u then bal s u + n else bal s v := by
  by_cases h : v = u <;> simp [hincrby, bal, h]

/-- Calling SubmitExport with a non-positive amount: local validation
error, nothing touched. -/
theorem SubmitExport_invalid (st : RState) (e : Export)
    (h : e.amount ≤ 0) :
    SubmitExport st e = (st, "", some (SubmitErr.malformedAmount e.amount)) := by
  simp [SubmitExport, h]

/-- Calling SubmitExport when the source balance is below the amount:
not-enough-funds, state kept. -/
theorem SubmitExport_nef (st : RState) (e : Export) (h1 : 0 < e.amount)
    (h2 : bal st.balances e.fromUserID < e.amount) :
    SubmitExport st e = (st, "", some SubmitErr.notEnoughFunds) := by
  simp [SubmitExport, not_le.mpr h1, submitExportCmd, h2]

/-- Calling SubmitExport on the success path: debit plus XADD of the
marshaled export, returning the rendered stream id. -/
theorem SubmitExport_ok (st : RState) (e : Export) (h1 : 0 < e.amount)
    (h2 : e.amount ≤ bal st.balances e.fromUserID) :
    SubmitExport st e =
      ({ balances := (hincrby st.balances e.fromUserID (-e.amount)).1,
         exports := st.exports ++ [⟨st.nextID, encodeExport e⟩],
         nextID := st.nextID + 1 }, toString st.nextID, none) := by
  simp [SubmitExport, not_le.mpr h1, submitExportCmd, not_lt.mpr h2]

/-- Witness for C6: the two scripts agree on the state where "a"
holds 3, transferring 1 from "a" to "b". -/
theorem transfer_variants_equiv_witness :
    (0 ≤ (1 : Int)) ∧
    transferCmd (fun v => if v = "a" then some 3 else none) "b" "a" 1 =
      transferCmdOld (fun v => if v = "a" then some 3 else none) "b" "a" 1 :=
  ⟨by decide, transfer_variants_equiv _ "b" "a" 1 (by decide)
    (fun u => by by_cases h : u = "a" <;> simp [bal, h])⟩

/-- Witness for C2 (amended) at a concrete state: "a" holds 7 and
transfers 3 to "b". -/
theorem transfer_spec_amended_witness :
    ("b" : String) ≠ "a" ∧
    (∃ s', Transfer (fun v => if v = "a" then some 7 else none) "b" "a" 3 =
        (s', bal (fun v => if v = "a" then some 7 else none) "b" + 3,
          bal (fun v => if v = "a" then some 7 else none) "a" - 3, none) ∧
      s' "b" = some (bal (fun v => if v = "a" then some 7 else none) "b" + 3) ∧
      s' "a" = some (bal (fun v => if v = "a" then some 7 else none) "a" - 3) ∧
      ∀ v, v ≠ "b" → v ≠ "a" →
        s' v = (fun v => if v = "a" then some 7 else none) v) :=
  ⟨by decide, (transfer_spec_amended _ "b" "a" 3).2.2.1 (by decide)
    (by decide) (by decide)⟩

/-- C9: `SubmitExport` of an export with a non-positive amount fails
with the local malformed-amount validation error before touching the
store: the state (balances and exports log) is returned unchanged and
the returned identifier is the empty string. -/
theorem submit_invalid_amount_spec (st : RState) (e : Export)
    (h : e.amount ≤ 0) :
    SubmitExport st e =
      (st, "", some (SubmitErr.malformedAmount e.amount)) := by
  simp [SubmitExport, h]

/-- Witness for C9: submitting an export of amount 0 from the empty
state fails locally. -/
theorem submit_invalid_amount_spec_witness :
    SubmitExport ⟨fun _ => none, [], 0⟩ ⟨"a", 0, "chain", "pp"⟩ =
      (⟨fun _ => none, [], 0⟩, "", some (SubmitErr.malformedAmount 0)) :=
  submit_invalid_amount_spec ⟨fun _ => none, [], 0⟩ ⟨"a", 0, "chain", "pp"⟩
    (by decide)

/-- C3: for a positive amount, `SubmitExport` either fails with the
not-enough-funds error leaving balances and the exports log unchanged
(exactly when the source balance is below the amount), or debits the
source by the amount, appends exactly one record to the exports log,
and returns the identifier of that record. -/
theorem submit_export_spec (st : RState) (e : Export)
    (hpos : 0 < e.amount) :
    (bal st.balances e.fromUserID < e.amount →
      SubmitExport st e = (st, "", some SubmitErr.notEnoughFunds)) ∧
    (e.amount ≤ bal st.balances e.fromUserID →
      ∃ st', SubmitExport st e = (st', toString st.nextID, none) ∧
        bal st'.balances e.fromUserID =
          bal st.balances e.fromUserID - e.amount ∧
        (∀ v, v ≠ e.fromUserID → st'.balances v = st.balances v) ∧
        st'.exports = st.exports ++ [⟨st.nextID, encodeExport e⟩] ∧
        st'.nextID = st.nextID + 1) := by
  constructor
  · intro h
    exact SubmitExport_nef st e hpos h
  · intro h
    refine ⟨_, SubmitExport_ok st e hpos h, ?_, ?_, rfl, rfl⟩
    · show bal (hincrby st.balances e.fromUserID (-e.amount)).1 e.fromUserID
        = bal st.balances e.fromUserID - e.amount
      rw [bal_hincrby]
      simp [sub_eq_add_neg]
    · intro v hv
      show (hincrby st.balances e.fromUserID (-e.amount)).1 v
        = st.balances v
      simp [hincrby, hv]

/-- Witness for C3: "a" holds 9 and submits an export of 5. -/
theorem submit_export_spec_witness :
    ∃ st', SubmitExport
        ⟨fun v => if v = "a" then some 9 else none, [], 0⟩
        ⟨"a", 5, "chain", "pp"⟩ = (st', toString (0 : Nat), none) ∧
      bal st'.balances "a" =
        bal (fun v => if v = "a" then some 9 else none) "a" - 5 ∧
      (∀ v, v ≠ "a" →
        st'.balances v = (fun v => if v = "a" then some 9 else none) v) ∧
      st'.exports = [] ++ [⟨0, encodeExport ⟨"a", 5, "chain", "pp"⟩⟩] ∧
      st'.nextID = 0 + 1 :=
  (submit_export_spec ⟨fun v => if v = "a" then some 9 else none, [], 0⟩
    ⟨"a", 5, "chain", "pp"⟩ (by decide)).2 (by decide)

/-- No single operation, successful or not, stores a negative
balance. -/
theorem applyOp_nonneg (st : RState) (op : Op) (h : nonNeg st) :
    nonNeg (applyOp st op) := by
  cases op with
  | balanceOf v => exact h
  | incr v amt =>
    intro u
    by_cases hc : bal st.balances v + amt < 0
    · simp only [applyOp, Incr_err st.balances v amt hc]
      exact h u
    · push_neg at hc
      simp only [applyOp, Incr_ok st.balances v amt hc]
      show 0 ≤ bal (hincrby st.balances v amt).1 u
      rw [bal_hincrby]
      split_ifs with h1
      · exact hc
      · exact h u
  | transfer dst src amt =>
    intro u
    by_cases hc : bal st.balances src - amt < 0 ∨ bal st.balances dst + amt < 0
    · simp only [applyOp, Transfer_err st.balances dst src amt hc]
      exact h u
    · simp only [applyOp, Transfer_ok st.balances dst src amt hc]
      show 0 ≤ bal (hincrby (hincrby st.balances dst amt).1 src (-amt)).1 u
      simp only [bal_hincrby]
      push_neg at hc
      have hd := h dst
      have hs := h src
      have hu := h u
      split_ifs <;> omega
  | submitExport e =>
    intro u
    by_cases h0 : e.amount ≤ 0
    · simp only [applyOp, SubmitExport_invalid st e h0]
      exact h u
    · push_neg at h0
      by_cases h2 : bal st.balances e.fromUserID < e.amount
      · simp only [applyOp, SubmitExport_nef st e h0 h2]
        exact h u
      · push_neg at h2
        simp only [applyOp, SubmitExport_ok st e h0 h2]
        show 0 ≤ bal (hincrby st.balances e.fromUserID (-e.amount)).1 u
        rw [bal_hincrby]
        have hu := h u
        split_ifs <;> omega

/-- C4: from any state with only non-negative balances, any sequence
of bank operations — balance reads, increments, transfers and export
submissions, whether each succeeds or fails — leaves every balance
non-negative. -/
theorem ops_preserve_nonneg (st : RState) (ops : List Op)
    (h : nonNeg st) : nonNeg (runOps st ops) := by
  induction ops generalizing st with
  | nil => exact h
  | cons op rest ih => exact ih (applyOp st op) (applyOp_nonneg st op h)

/-- Witness for C4: a mixed sequence from the empty state, including
a failing over-withdrawal. -/
theorem ops_preserve_nonneg_witness :
    nonNeg (runOps ⟨fun _ => none, [], 0⟩
      [Op.incr "a" 10, Op.transfer "b" "a" 3,
        Op.submitExport ⟨"a", 5, "chain", "pp"⟩, Op.incr "a" (-100)]) :=
  ops_preserve_nonneg ⟨fun _ => none, [], 0⟩
    [Op.incr "a" 10, Op.transfer "b" "a" 3,
      Op.submitExport ⟨"a", 5, "chain", "pp"⟩, Op.incr "a" (-100)]
    (fun u => by simp [bal])

/-- The balance change of one operation: its requested delta when
it succeeds, nothing when it fails. -/
theorem applyOp_balance (st : RState) (op : Op) (u : String) :
    bal (applyOp st op).balances u =
      bal st.balances u + (if opOk st op then opDelta u op else 0) := by
  cases op with
  | balanceOf v => simp [applyOp, opOk, opDelta]
  | incr v amt =>
    by_cases hc : bal st.balances v + amt < 0
    · simp [applyOp, opOk, opDelta, Incr_err st.balances v amt hc]
    · push_neg at hc
      simp only [applyOp, opOk, opDelta, Incr_ok st.balances v amt hc,
        Option.isNone_none, if_true]
      show bal (hincrby st.balances v amt).1 u =
        bal st.balances u + (if v = u then amt else 0)
      rw [bal_hincrby]
      by_cases hv : u = v
      · subst hv
        simp
      · simp [hv, Ne.symm hv]
  | transfer dst src amt =>
    by_cases hc : bal st.balances src - amt < 0 ∨ bal st.balances dst + amt < 0
    · simp [applyOp, opOk, opDelta, Transfer_err st.balances dst src amt hc]
    · simp only [applyOp, opOk, opDelta,
        Transfer_ok st.balances dst src amt hc, Option.isNone_none, if_true]
      show bal (hincrby (hincrby st.balances dst amt).1 src (-amt)).1 u =
        bal st.balances u +
          ((if dst = u then amt else 0) + (if src = u then -amt else 0))
      simp only [bal_hincrby]
      by_cases h1 : u = src
      · subst h1
        by_cases h3 : u = dst
        · subst h3
          simp
        · simp [h3, Ne.symm h3]
      · by_cases h2 : u = dst
        · subst h2
          simp [h1, Ne.symm h1]
        · simp [h1, h2, Ne.symm h1, Ne.symm h2]
  | submitExport e =>
    by_cases h0 : e.amount ≤ 0
    · simp [applyOp, opOk, opDelta, SubmitExport_invalid st e h0]
    · push_neg at h0
      by_cases h2 : bal st.balances e.fromUserID < e.amount
      · simp [applyOp, opOk, opDelta, SubmitExport_nef st e h0 h2]
      · push_neg at h2
        simp only [applyOp, opOk, opDelta, SubmitExport_ok st e h0 h2,
          Option.isNone_none, if_true]
        show bal (hincrby st.balances e.fromUserID (-e.amount)).1 u =
          bal st.balances u +
            (if e.fromUserID = u then -e.amount else 0)
        rw [bal_hincrby]
        by_cases hv : u = e.fromUserID
        · subst hv
          simp
        · simp [hv, Ne.symm hv]

/-- Accounting identity over a whole run: the final balance is the
initial balance plus the deltas of the successful operations. -/
theorem runOps_balance (st : RState) (u : String) (ops : List Op) :
    bal (runOps st ops).balances u =
      bal st.balances u + appliedDeltas u st ops := by
  induction ops generalizing st with
  | nil => simp [runOps, appliedDeltas]
  | cons op rest ih =>
    show bal (runOps (applyOp st op) rest).balances u = _
    rw [ih (applyOp st op), applyOp_balance st op u, appliedDeltas]
    ring

/-- C7: for every sequence of `Incr`/`Transfer` calls against the
bank (concurrent calls being linearized by the atomicity of the
server-side scripts), the final balance of any user equals the
initial balance plus the sum of the deltas of the
successfully-applied operations: no successful operation is lost. -/
theorem no_lost_updates (st : RState) (u : String) (ops : List Op)
    (hops : ∀ op ∈ ops, ledgerOp op = true) :
    bal (runOps st ops).balances u =
      bal st.balances u + appliedDeltas u st ops :=
  runOps_balance st u ops

/-- Witness for C7: increments and transfers on "a", one of which
fails, starting from the empty state. -/
theorem no_lost_updates_witness :
    (∀ op ∈ [Op.incr "a" 10, Op.transfer "b" "a" 3, Op.incr "a" (-100),
        Op.incr "a" (-2)], ledgerOp op = true) ∧
    bal (runOps ⟨fun _ => none, [], 0⟩
        [Op.incr "a" 10, Op.transfer "b" "a" 3, Op.incr "a" (-100),
          Op.incr "a" (-2)]).balances "a" =
      bal (fun _ => none) "a" +
        appliedDeltas "a" ⟨fun _ => none, [], 0⟩
          [Op.incr "a" 10, Op.transfer "b" "a" 3, Op.incr "a" (-100),
            Op.incr "a" (-2)] :=
  ⟨by decide, no_lost_updates ⟨fun _ => none, [], 0⟩ "a"
    [Op.incr "a" 10, Op.transfer "b" "a" 3, Op.incr "a" (-100),
      Op.incr "a" (-2)] (by decide)⟩

/-- C5: the `ConsumeExports` loop never returns a nil error and never
closes the output channel; it returns the context error when the
context is canceled at the top of an iteration, a non-nil error when
the reader fails or a record fails to deserialize, and on a read
timeout it continues looping rather than returning. -/
theorem consume_exports_spec :
    (∀ steps, (consumeLoop steps).2 ≠ some none) ∧
    (∀ steps, ChanOp.close ∉ (consumeLoop steps).1) ∧
    (∀ rest, consumeLoop (ConsumeStep.canceled :: rest) =
      ([], some (some GoError.ctxErr))) ∧
    (∀ m rest, consumeLoop (ConsumeStep.read (ReadResult.err m) :: rest) =
      ([], some (some (GoError.readerErr m)))) ∧
    (∀ e rest, decodeExport e.json = none →
      consumeLoop (ConsumeStep.read (ReadResult.entry e) :: rest) =
        ([], some (some (GoError.unmarshalErr e.json)))) ∧
    (∀ rest, consumeLoop (ConsumeStep.read ReadResult.timeout :: rest) =
      consumeLoop rest) := by
  refine ⟨?_, ?_, fun rest => rfl, fun m rest => rfl, ?_, fun rest => rfl⟩
  · intro steps
    induction steps with
    | nil => simp [consumeLoop]
    | cons s rest ih =>
      cases s with
      | canceled => simp [consumeLoop]
      | read r =>
        cases r with
        | err m => simp [consumeLoop]
        | timeout => simpa [consumeLoop] using ih
        | entry e =>
          show (consumeEntry e (decodeExport e.json) (consumeLoop rest)).2
            ≠ some none
          cases hd : decodeExport e.json with
          | none => simp [consumeEntry]
          | some ex => simpa [consumeEntry] using ih
  · intro steps
    induction steps with
    | nil => simp [consumeLoop]
    | cons s rest ih =>
      cases s with
      | canceled => simp [consumeLoop]
      | read r =>
        cases r with
        | err m => simp [consumeLoop]
        | timeout => simpa [consumeLoop] using ih
        | entry e =>
          show ChanOp.close ∉
            (consumeEntry e (decodeExport e.json) (consumeLoop rest)).1
          cases hd : decodeExport e.json with
          | none => simp [consumeEntry]
          | some ex => simpa [consumeEntry] using ih
  · intro e rest hdec
    show consumeEntry e (decodeExport e.json) (consumeLoop rest) = _
    rw [hdec]
    rfl

/-- Witness for C5: an entry whose payload is not valid export JSON
makes the loop return the unmarshal error without sending. -/
theorem consume_exports_spec_witness :
    consumeLoop [ConsumeStep.read (ReadResult.entry ⟨0, "bad"⟩)] =
      ([], some (some (GoError.unmarshalErr "bad"))) :=
  consume_exports_spec.2.2.2.2.1 ⟨0, "bad"⟩ [] (by decide)

/-- Observationally equal balance maps stay observationally equal
under HINCRBY. -/
theorem obsEq_hincrby (s1 s2 : Balances) (h : obsEq s1 s2)
    (u : String) (n : Int) :
    obsEq (hincrby s1 u n).1 (hincrby s2 u n).1 := by
  intro v
  rw [bal_hincrby, bal_hincrby, h u, h v]

/-- The Incr wrapper cannot tell observationally equal balance maps apart. -/
theorem obsEq_Incr (s1 s2 : Balances) (h : obsEq s1 s2)
    (u : String) (amt : Int) :
    (Incr s1 u amt).2 = (Incr s2 u amt).2 ∧
    obsEq (Incr s1 u amt).1 (Incr s2 u amt).1 := by
  by_cases hc : bal s1 u + amt < 0
  · have hc2 : bal s2 u + amt < 0 := by rw [← h u]; exact hc
    rw [Incr_err s1 u amt hc, Incr_err s2 u amt hc2]
    exact ⟨rfl, h⟩
  · push_neg at hc
    have hc2 : 0 ≤ bal s2 u + amt := by rw [← h u]; exact hc
    rw [Incr_ok s1 u amt hc, Incr_ok s2 u amt hc2]
    exact ⟨by rw [h u], obsEq_hincrby s1 s2 h u amt⟩

/-- The Transfer wrapper cannot tell observationally equal balance maps apart. -/
theorem obsEq_Transfer (s1 s2 : Balances) (h : obsEq s1 s2)
    (dst src : String) (amt : Int) :
    (Transfer s1 dst src amt).2 = (Transfer s2 dst src amt).2 ∧
    obsEq (Transfer s1 dst src amt).1 (Transfer s2 dst src amt).1 := by
  by_cases hc : bal s1 src - amt < 0 ∨ bal s1 dst + amt < 0
  · have hc2 : bal s2 src - amt < 0 ∨ bal s2 dst + amt < 0 := by
      rw [← h src, ← h dst]; exact hc
    rw [Transfer_err s1 dst src amt hc, Transfer_err s2 dst src amt hc2]
    exact ⟨rfl, h⟩
  · have hc2 : ¬ (bal s2 src - amt < 0 ∨ bal s2 dst + amt < 0) := by
      rw [← h src, ← h dst]; exact hc
    rw [Transfer_ok s1 dst src amt hc, Transfer_ok s2 dst src amt hc2]
    have e1 : (hincrby s1 dst amt).2 = (hincrby s2 dst amt).2 := by
      show bal s1 dst + amt = bal s2 dst + amt
      rw [h dst]
    have e2 : (hincrby (hincrby s1 dst amt).1 src (-amt)).2
        = (hincrby (hincrby s2 dst amt).1 src (-amt)).2 := by
      show bal (hincrby s1 dst amt).1 src + (-amt)
        = bal (hincrby s2 dst amt).1 src + (-amt)
      rw [obsEq_hincrby s1 s2 h dst amt src]
    refine ⟨?_, obsEq_hincrby _ _ (obsEq_hincrby s1 s2 h dst amt) src (-amt)⟩
    rw [e1, e2]

/-- The SubmitExport operation cannot tell observationally equal balance maps
apart: same result, same log, observationally equal balances. -/
theorem obsEq_SubmitExport (s1 s2 : Balances) (h : obsEq s1 s2)
    (l : List StreamEntry) (n : Nat) (e : Export) :
    (SubmitExport ⟨s1, l, n⟩ e).2 = (SubmitExport ⟨s2, l, n⟩ e).2 ∧
    obsEq (SubmitExport ⟨s1, l, n⟩ e).1.balances
      (SubmitExport ⟨s2, l, n⟩ e).1.balances ∧
    (SubmitExport ⟨s1, l, n⟩ e).1.exports =
      (SubmitExport ⟨s2, l, n⟩ e).1.exports ∧
    (SubmitExport ⟨s1, l, n⟩ e).1.nextID =
      (SubmitExport ⟨s2, l, n⟩ e).1.nextID := by
  by_cases h0 : e.amount ≤ 0
  · rw [SubmitExport_invalid _ e h0, SubmitExport_invalid _ e h0]
    exact ⟨rfl, h, rfl, rfl⟩
  · push_neg at h0
    by_cases h2 : bal s1 e.fromUserID < e.amount
    · have h2b : bal s2 e.fromUserID < e.amount := by
        rw [← h e.fromUserID]; exact h2
      rw [SubmitExport_nef _ e h0 h2, SubmitExport_nef _ e h0 h2b]
      exact ⟨rfl, h, rfl, rfl⟩
    · push_neg at h2
      have h2b : e.amount ≤ bal s2 e.fromUserID := by
        rw [← h e.fromUserID]; exact h2
      rw [SubmitExport_ok _ e h0 h2, SubmitExport_ok _ e h0 h2b]
      exact ⟨rfl, obsEq_hincrby s1 s2 h e.fromUserID (-e.amount), rfl, rfl⟩

/-- Setting an absent balance field to a recorded 0 changes nothing
observable. -/
theorem obsEq_setZero (s : Balances) (u : String) (h : s u = none) :
    obsEq (setField s u (some 0)) s := by
  intro v
  by_cases hv : v = u
  · subst hv
    simp [setField, bal, h]
  · simp [setField, bal, hv]

/-- C8: `Balance` of a user with no recorded balance is 0, and every
operation treats such a user exactly like one whose recorded balance
is 0: recording the 0 explicitly changes no observable balance, and
`Incr`, `Transfer` and `SubmitExport` return the same results and
observationally equal states either way. -/
theorem zero_balance_spec (s : Balances) (u : String) (h : s u = none) :
    Balance s u = 0 ∧
    obsEq (setField s u (some 0)) s ∧
    (∀ v amt, (Incr (setField s u (some 0)) v amt).2 = (Incr s v amt).2 ∧
      obsEq (Incr (setField s u (some 0)) v amt).1 (Incr s v amt).1) ∧
    (∀ dst src amt,
      (Transfer (setField s u (some 0)) dst src amt).2 =
        (Transfer s dst src amt).2 ∧
      obsEq (Transfer (setField s u (some 0)) dst src amt).1
        (Transfer s dst src amt).1) ∧
    (∀ e l n,
      (SubmitExport ⟨setField s u (some 0), l, n⟩ e).2 =
        (SubmitExport ⟨s, l, n⟩ e).2 ∧
      obsEq (SubmitExport ⟨setField s u (some 0), l, n⟩ e).1.balances
        (SubmitExport ⟨s, l, n⟩ e).1.balances ∧
      (SubmitExport ⟨setField s u (some 0), l, n⟩ e).1.exports =
        (SubmitExport ⟨s, l, n⟩ e).1.exports ∧
      (SubmitExport ⟨setField s u (some 0), l, n⟩ e).1.nextID =
        (SubmitExport ⟨s, l, n⟩ e).1.nextID) := by
  have hobs := obsEq_setZero s u h
  exact ⟨by simp [Balance, bal, h], hobs,
    fun v amt => obsEq_Incr _ _ hobs v amt,
    fun dst src amt => obsEq_Transfer _ _ hobs dst src amt,
    fun e l n => obsEq_SubmitExport _ _ hobs l n e⟩

/-- Witness for C8 on the empty state at user "a". -/
theorem zero_balance_spec_witness :
    Balance (fun _ => none) "a" = 0 ∧
    obsEq (setField (fun _ => none) "a" (some 0)) (fun _ => none) ∧
    (∀ v amt,
      (Incr (setField (fun _ => none) "a" (some 0)) v amt).2 =
        (Incr (fun _ => none) v amt).2 ∧
      obsEq (Incr (setField (fun _ => none) "a" (some 0)) v amt).1
        (Incr (fun _ => none) v amt).1) ∧
    (∀ dst src amt,
      (Transfer (setField (fun _ => none) "a" (some 0)) dst src amt).2 =
        (Transfer (fun _ => none) dst src amt).2 ∧
      obsEq (Transfer (setField (fun _ => none) "a" (some 0)) dst src amt).1
        (Transfer (fun _ => none) dst src amt).1) ∧
    (∀ e l n,
      (SubmitExport ⟨setField (fun _ => none) "a" (some 0), l, n⟩ e).2 =
        (SubmitExport ⟨fun _ => none, l, n⟩ e).2 ∧
      obsEq
        (SubmitExport ⟨setField (fun _ => none) "a" (some 0), l, n⟩ e).1.balances
        (SubmitExport ⟨fun _ => none, l, n⟩ e).1.balances ∧
      (SubmitExport ⟨setField (fun _ => none) "a" (some 0), l, n⟩ e).1.exports =
        (SubmitExport ⟨fun _ => none, l, n⟩ e).1.exports ∧
      (SubmitExport ⟨setField (fun _ => none) "a" (some 0), l, n⟩ e).1.nextID =
        (SubmitExport ⟨fun _ => none, l, n⟩ e).1.nextID) :=
  zero_balance_spec (fun _ => none) "a" rfl

/-- C10: when the first pending entry of the consumer group has a
payload that fails to deserialize, a `ConsumeExports` session is that
entry redelivered first, and the session returns the unmarshal error
having sent nothing and changed no group bookkeeping (the entry is
neither acked nor nacked) — so the group state being returned
unchanged, every subsequent session encounters the same entry again. -/
theorem consume_malformed_spec (entries : List StreamEntry) (g : Group)
    (e : StreamEntry) (i : Nat)
    (hhead : g.pending.head? = some i)
    (hfind : entries.find? (fun x => x.id == i) = some e)
    (hdec : decodeExport e.json = none)
    (hcur : e.id ≤ g.lastDelivered) :
    (sessionEntries entries g).head? = some e ∧
    consumeSession (sessionEntries entries g) g =
      ([], g, some (GoError.unmarshalErr e.json)) := by
  obtain ⟨ld, pend⟩ := g
  obtain ⟨rest, hp⟩ : ∃ rest, pend = i :: rest := by
    cases hg : pend with
    | nil =>
      rw [hg] at hhead
      simp at hhead
    | cons p r =>
      rw [hg] at hhead
      simp only [List.head?_cons, Option.some.injEq] at hhead
      exact ⟨r, by rw [hhead]⟩
  subst hp
  have hid : e.id = i := by
    have hpred := List.find?_some hfind
    simpa using hpred
  have hmem : e.id ∈ i :: rest := by
    rw [hid]
    exact List.mem_cons_self i rest
  have hdel : deliver ⟨ld, i :: rest⟩ e = ⟨ld, i :: rest⟩ := by
    simp only [deliver, hmem, if_true]
    rw [max_eq_left hcur]
  have hsess : sessionEntries entries ⟨ld, i :: rest⟩ =
      e :: (rest.filterMap (fun j => entries.find? (fun x => x.id == j)) ++
        entries.filter (fun x => decide (ld < x.id))) := by
    simp [sessionEntries, List.filterMap_cons, hfind]
  rw [hsess]
  refine ⟨rfl, ?_⟩
  show sessionEntry e (deliver ⟨ld, i :: rest⟩ e) (decodeExport e.json)
      (consumeSession _ (deliver ⟨ld, i :: rest⟩ e)) = _
  rw [hdec, hdel]
  rfl

/-- Witness for C10: one stream entry with payload "bad", pending for
the group. -/
theorem consume_malformed_spec_witness :
    (sessionEntries [⟨0, "bad"⟩] ⟨0, [0]⟩).head? = some ⟨0, "bad"⟩ ∧
    consumeSession (sessionEntries [⟨0, "bad"⟩] ⟨0, [0]⟩) ⟨0, [0]⟩ =
      ([], ⟨0, [0]⟩, some (GoError.unmarshalErr "bad")) :=
  consume_malformed_spec [⟨0, "bad"⟩] ⟨0, [0]⟩ ⟨0, "bad"⟩ 0
    (by decide) (by decide) (by decide) (by decide)

end Buckaroo
